import Mathlib

/-!
Verification of the NEAT core of the `nevopy` repository: the genome
representation (`nevopy/neat/genome.py`), the innovation-number allocator
(`nevopy/neat/id_handler.py`) and the gene data model they operate on.

Python floats are embedded as `Rat`, machine integers as `Nat`.  Mutable
object state is embedded as explicit state passing: every operation that
mutates a genome or the id handler returns the updated value, and fallible
operations return `Except`.  Randomness (numpy draws and `utils.chance`)
is embedded as explicit oracle arguments: a function giving the outcome of
the n-th draw of the corresponding kind.

The gene classes (`NodeGene`, `ConnectionGene`, `align_connections`,
`connection_exists` from `nevopy/neat/genes.py`) and the helpers
`utils.chance` / `activations.linear` are part of the repository but their
source file is not available; their definitions below are modelled from the
spec and are marked as such.
-/

namespace Nevopy

/-- Node gene types, mirroring `NodeGene.Type` used throughout
`genome.py` (INPUT, OUTPUT, HIDDEN, BIAS). -/
inductive NodeType
  | INPUT
  | OUTPUT
  | HIDDEN
  | BIAS
deriving DecidableEq, Repr

/-- Modelled from the spec: a node gene of `nevopy/neat/genes.py` (file not
under `src/`).  Attributes per spec §3: identifier, type, activation
function, current activation value, and the configured initial activation.
The incoming/outgoing connection lists are derived from the owning genome's
connection sequence (see `outConnections` / `inConnections`), since in the
source they are kept in sync with it by `Genome.add_connection`. -/
structure NodeGene where
  id : Nat
  type : NodeType
  activation_func : Rat → Rat
  initial_activation : Rat
  activation : Rat

/-- Modelled from the spec: `NodeGene.shallow_copy` — a new node with the
same identifier, type, activation function and initial value, with its
activation back at the initial value and empty (derived) connection lists. -/
def NodeGene.shallow_copy (n : NodeGene) : NodeGene :=
  { n with activation := n.initial_activation }

/-- Modelled from the spec: `NodeGene.activate` applies the activation
function to the input sum and stores the result. -/
def NodeGene.activate (n : NodeGene) (zsum : Rat) : NodeGene :=
  { n with activation := n.activation_func zsum }

/-- Modelled from the spec: `activations.linear` (identity activation),
used for input and bias nodes by `Genome.__init__`. -/
def linearAct : Rat → Rat := fun x => x

/-- Modelled from the spec: a connection gene of `nevopy/neat/genes.py`
(file not under `src/`): innovation identifier, source and destination node
references (embedded as snapshots of the node's immutable identity — only
their `id`/`type`/immutable fields are ever consulted through a connection),
weight and enabled flag. -/
structure ConnectionGene where
  id : Nat
  from_node : NodeGene
  to_node : NodeGene
  weight : Rat
  enabled : Bool

/-- Configuration options consumed by `Genome` and its operators
(`self.config` in the source).  Probability-valued options are not stored:
each random outcome is supplied by an oracle argument at the call site. -/
structure Config where
  out_nodes_activation : Rat → Rat
  hidden_nodes_activation : Rat → Rat
  initial_node_activation : Rat
  bias_value : Option Rat
  excess_genes_coefficient : Rat
  disjoint_genes_coefficient : Rat
  weight_difference_coefficient : Rat

/-- The genome of `nevopy/neat/genome.py`: input / bias / output / hidden
node gene collections, the connection gene sequence, and the fitness
fields.  (The genome id and species id play no role in any verified
operation and are omitted.) -/
structure Genome where
  config : Config
  input_nodes : List NodeGene
  bias_node : Option NodeGene
  output_nodes : List NodeGene
  hidden_nodes : List NodeGene
  connections : List ConnectionGene
  fitness : Rat
  adj_fitness : Rat

/-- `Genome.nodes`: all node genes, in the source's order — inputs, bias,
outputs, hidden. -/
def Genome.nodes (g : Genome) : List NodeGene :=
  g.input_nodes ++ g.bias_node.toList ++ g.output_nodes ++ g.hidden_nodes

/-- Derived outgoing-connection list of the node with id `nid` inside
genome `g` (the source keeps `node.out_connections` in sync with
`genome.connections`; order is insertion order in both). -/
def outConnections (g : Genome) (nid : Nat) : List ConnectionGene :=
  g.connections.filter (fun c => c.from_node.id == nid)

/-- Derived incoming-connection list of the node with id `nid` inside
genome `g`. -/
def inConnections (g : Genome) (nid : Nat) : List ConnectionGene :=
  g.connections.filter (fun c => c.to_node.id == nid)

/-- Modelled from the spec: `connection_exists(src, dest)` from
`nevopy/neat/genes.py` (file not under `src/`) — scans `src`'s outgoing
connections for a matching destination. -/
def connection_exists (g : Genome) (src dest : NodeGene) : Bool :=
  (outConnections g src.id).any (fun c => c.to_node.id == dest.id)

/-- Error conditions raised by the embedded operations.
`ConnectionExistsError` and `ConnectionToBiasNodeError` are the exception
classes of `genome.py`; `InvalidInputError` is the `assert` of
`Genome.process`; `ValueError` is numpy's error for drawing from an empty
sequence; `KeyError` is a failed `added_nodes[...]` lookup in
`mate_genomes`. -/
inductive GError
  | ConnectionExistsError
  | ConnectionToBiasNodeError
  | InvalidInputError
  | ValueError
  | KeyError
deriving DecidableEq, Repr

/-! ### The ID handler (`nevopy/neat/id_handler.py`) -/

/-- The `IdHandler` state: four counters, the two per-generation caches
(dict-of-dict in the source, embedded as association lists keyed by the
(source id, destination id) pair) and the reset counter. -/
structure IdHandler where
  node_counter : Nat
  connection_counter : Nat
  genome_counter : Nat
  species_counter : Nat
  new_connections_ids : List ((Nat × Nat) × Nat)
  new_nodes_ids : List ((Nat × Nat) × Nat)
  reset_counter : Nat
deriving DecidableEq, Repr

/-- `IdHandler.__init__(num_inputs, num_outputs, has_bias)`.  The source
line is `self._node_counter = num_inputs + num_outputs + 1 if has_bias
else 0`, and in Python the conditional expression binds last, so the whole
sum is conditional on `has_bias`. -/
def IdHandler.init (num_inputs num_outputs : Nat) (has_bias : Bool) : IdHandler :=
  { node_counter := if has_bias then num_inputs + num_outputs + 1 else 0
    connection_counter := num_inputs * num_outputs
    genome_counter := 0
    species_counter := 0
    new_connections_ids := []
    new_nodes_ids := []
    reset_counter := 0 }

/-- `IdHandler.reset()`: clears both per-generation caches and the reset
counter; the four id counters are untouched. -/
def IdHandler.reset (hd : IdHandler) : IdHandler :=
  { hd with new_connections_ids := [], new_nodes_ids := [], reset_counter := 0 }

/-- `IdHandler.next_genome_id()`: returns the genome counter and
post-increments it. -/
def IdHandler.next_genome_id (hd : IdHandler) : Nat × IdHandler :=
  (hd.genome_counter, { hd with genome_counter := hd.genome_counter + 1 })

/-- `IdHandler.next_species_id()`: returns the species counter and
post-increments it. -/
def IdHandler.next_species_id (hd : IdHandler) : Nat × IdHandler :=
  (hd.species_counter, { hd with species_counter := hd.species_counter + 1 })

/-- `IdHandler.next_hidden_node_id(src_id, dest_id)`: cached per-generation
allocation from the node counter. -/
def IdHandler.next_hidden_node_id (hd : IdHandler) (src_id dest_id : Nat) :
    Nat × IdHandler :=
  match hd.new_nodes_ids.find? (fun p => p.1 == (src_id, dest_id)) with
  | some p => (p.2, hd)
  | none =>
      (hd.node_counter,
       { hd with
          node_counter := hd.node_counter + 1
          new_nodes_ids := hd.new_nodes_ids ++ [((src_id, dest_id), hd.node_counter)] })

/-- `IdHandler.next_connection_id(src_id, dest_id)`: cached per-generation
allocation from the connection counter. -/
def IdHandler.next_connection_id (hd : IdHandler) (src_id dest_id : Nat) :
    Nat × IdHandler :=
  match hd.new_connections_ids.find? (fun p => p.1 == (src_id, dest_id)) with
  | some p => (p.2, hd)
  | none =>
      (hd.connection_counter,
       { hd with
          connection_counter := hd.connection_counter + 1
          new_connections_ids :=
            hd.new_connections_ids ++ [((src_id, dest_id), hd.connection_counter)] })

/-- C2: the claimed node-counter start value, for comparison with the
code's. -/
def claimedNodeCounter (num_inputs num_outputs : Nat) (has_bias : Bool) : Nat :=
  num_inputs + num_outputs + (if has_bias then 1 else 0)

/-- C2 (code bug): for `num_inputs = 2`, `num_outputs = 1` and no bias
node, `IdHandler.__init__` sets the node counter to `0`, not to
`num_inputs + num_outputs = 3` as the claim states (the Python conditional
expression `num_inputs + num_outputs + 1 if has_bias else 0` makes the
whole sum conditional); the bias case and the connection counter do match
the claim. -/
theorem id_handler_init_node_counter_bug :
    (IdHandler.init 2 1 false).node_counter = 0 ∧
    (IdHandler.init 2 1 false).node_counter ≠ claimedNodeCounter 2 1 false ∧
    (IdHandler.init 2 1 true).node_counter = claimedNodeCounter 2 1 true ∧
    (IdHandler.init 2 1 false).connection_counter = 2 * 1 ∧
    (IdHandler.init 2 1 true).connection_counter = 2 * 1 := by
  refine ⟨rfl, ?_, rfl, rfl, rfl⟩
  decide

/-! ### `Genome.add_connection` -/

/-- `Genome.add_connection(src_node, dest_node, enabled=True, cid=None,
weight=None)`.  `cid?` and `weight?` are the optional arguments: `none`
means the id is allocated from the id handler / the weight is the outcome
`wdraw` of the uniform random draw.  As in the source, both failure checks
run — in source order — before any state is touched; on success the new
connection gene is appended to the genome's connection sequence (and
thereby to both endpoints' derived adjacency lists). -/
def add_connection (g : Genome) (hd : IdHandler) (src dest : NodeGene)
    (enabled : Bool) (cid? : Option Nat) (weight? : Option Rat) (wdraw : Rat) :
    Except GError (Genome × IdHandler) :=
  if connection_exists g src dest then .error .ConnectionExistsError
  else if dest.type = .BIAS ∨ dest.type = .INPUT then .error .ConnectionToBiasNodeError
  else
    let cidhd : Nat × IdHandler :=
      match cid? with
      | some c => (c, hd)
      | none => hd.next_connection_id src.id dest.id
    .ok ({ g with
            connections := g.connections ++
              [{ id := cidhd.1, from_node := src, to_node := dest,
                 weight := weight?.getD wdraw, enabled := enabled }] },
         cidhd.2)

/-- The genome a caller of `add_connection` is left with: the updated
genome on success, the caller's unchanged genome when the call raises. -/
def addConnectionKeep (g : Genome) (hd : IdHandler) (src dest : NodeGene)
    (enabled : Bool) (cid? : Option Nat) (weight? : Option Rat) (wdraw : Rat) : Genome :=
  match add_connection g hd src dest enabled cid? weight? wdraw with
  | .ok p => p.1
  | .error _ => g

/-- C6: `add_connection` raises `ConnectionExistsError` whenever the
(src, dest) connection is already present, raises
`ConnectionToBiasNodeError` whenever (no duplicate and) the destination is
a BIAS or INPUT node, leaves the connection sequence and both endpoints'
adjacency lists unchanged on any failure, and after one successful call the
same (src, dest) call always fails with `ConnectionExistsError`. -/
theorem add_connection_contract (g : Genome) (hd : IdHandler) (src dest : NodeGene)
    (en : Bool) (cid? : Option Nat) (w? : Option Rat) (wd : Rat) :
    (connection_exists g src dest = true →
      add_connection g hd src dest en cid? w? wd = .error .ConnectionExistsError) ∧
    (connection_exists g src dest = false →
      (dest.type = .BIAS ∨ dest.type = .INPUT) →
      add_connection g hd src dest en cid? w? wd = .error .ConnectionToBiasNodeError) ∧
    (∀ e, add_connection g hd src dest en cid? w? wd = .error e →
      (addConnectionKeep g hd src dest en cid? w? wd).connections = g.connections ∧
      outConnections (addConnectionKeep g hd src dest en cid? w? wd) src.id
        = outConnections g src.id ∧
      inConnections (addConnectionKeep g hd src dest en cid? w? wd) dest.id
        = inConnections g dest.id) ∧
    (∀ g' hd', add_connection g hd src dest en cid? w? wd = .ok (g', hd') →
      ∀ (en2 : Bool) (cid2 : Option Nat) (w2 : Option Rat) (wd2 : Rat) (hd2 : IdHandler),
        add_connection g' hd2 src dest en2 cid2 w2 wd2 = .error .ConnectionExistsError) :=
  by
  refine ⟨?_, ?_, ?_, ?_⟩
  · intro h
    simp [add_connection, h]
  · intro h1 h2
    simp [add_connection, h1, h2]
  · intro e herr
    simp [addConnectionKeep, herr]
  · intro g' hd' hok en2 cid2 w2 wd2 hd2
    by_cases h1 : connection_exists g src dest
    · simp [add_connection, h1] at hok
    by_cases h2 : dest.type = .BIAS ∨ dest.type = .INPUT
    · simp [add_connection, h1, h2] at hok
    simp only [add_connection, h1, h2, if_false, Bool.false_eq_true, if_neg,
      Except.ok.injEq, Prod.mk.injEq] at hok
    obtain ⟨hg, -⟩ := hok
    subst hg
    simp [add_connection, connection_exists, outConnections, List.filter_append]

/-- Concrete material for witnesses: a 1-input / 1-output genome. -/
def nodeW0 : NodeGene := ⟨0, .INPUT, linearAct, 0, 0⟩

def nodeW1 : NodeGene := ⟨1, .OUTPUT, linearAct, 0, 0⟩

def cfgW : Config := ⟨linearAct, linearAct, 0, none, 1, 1, 1⟩

/-- A genome already holding the 0 → 1 connection. -/
def gW : Genome := ⟨cfgW, [nodeW0], none, [nodeW1], [], [⟨5, nodeW0, nodeW1, 1, true⟩], 0, 0⟩

/-- The same genome with no connections. -/
def gWempty : Genome := ⟨cfgW, [nodeW0], none, [nodeW1], [], [], 0, 0⟩

def hdW : IdHandler := IdHandler.init 1 1 false

/-- The genome produced by a successful `add_connection` on `gWempty`. -/
def gWadded : Genome :=
  { gWempty with connections := [⟨9, nodeW0, nodeW1, 1, true⟩] }

theorem add_connection_contract_witness :
    add_connection gW hdW nodeW0 nodeW1 true (some 9) (some 1) 0
      = .error .ConnectionExistsError ∧
    add_connection gWempty hdW nodeW1 nodeW0 true (some 9) (some 1) 0
      = .error .ConnectionToBiasNodeError ∧
    (addConnectionKeep gW hdW nodeW0 nodeW1 true (some 9) (some 1) 0).connections
      = gW.connections ∧
    add_connection gWadded hdW nodeW0 nodeW1 true (some 9) (some 1) 0
      = .error .ConnectionExistsError := by
  have h1 := (add_connection_contract gW hdW nodeW0 nodeW1 true (some 9) (some 1) 0).1
    (by decide)
  have h2 := (add_connection_contract gWempty hdW nodeW1 nodeW0 true (some 9) (some 1) 0).2.1
    (by decide) (Or.inr rfl)
  have h3 := ((add_connection_contract gW hdW nodeW0 nodeW1 true (some 9) (some 1) 0).2.2.1
    .ConnectionExistsError h1).1
  have h4 := (add_connection_contract gWempty hdW nodeW0 nodeW1 true (some 9) (some 1) 0).2.2.2
    gWadded hdW rfl true (some 9) (some 1) 0 hdW
  exact ⟨h1, h2, h3, h4⟩

/-! ### Gene alignment and the distance metric -/

/-- Modelled from the spec: inner loop of the linear merge underlying
`align_connections` (from `nevopy/neat/genes.py`, not under `src/`) —
consumes the second sequence while its identifiers are smaller than `c.id`;
`rest` continues the merge for the remaining first sequence. -/
def alignOne (c : ConnectionGene)
    (rest : List ConnectionGene → List (Option ConnectionGene × Option ConnectionGene)) :
    List ConnectionGene → List (Option ConnectionGene × Option ConnectionGene)
  | [] => (some c, none) :: rest []
  | d :: ds =>
    if c.id = d.id then (some c, some d) :: rest ds
    else if c.id < d.id then (some c, none) :: rest (d :: ds)
    else (none, some d) :: alignOne c rest ds

/-- Modelled from the spec: `align_connections` (§4.4 — a linear two-pointer
merge by ascending innovation identifier producing two parallel slot
sequences), composed with the `zip(*genes)` its callers in `genome.py`
apply: each slot holds the two aligned genes, `none` marking absence. -/
def alignZip :
    List ConnectionGene → List ConnectionGene →
      List (Option ConnectionGene × Option ConnectionGene)
  | [], l2 => l2.map (fun d => (none, some d))
  | c :: cs, l2 => alignOne c (alignZip cs) l2

/-- `np.amax([c.id for c in connections])` (for a non-empty list; embedded
totally with `0` on the empty list the source would crash on). -/
def maxInnov (l : List ConnectionGene) : Nat := l.foldl (fun m c => max m c.id) 0

/-- Python's `abs` on the rationals embedding the source's floats. -/
def ratAbs (x : Rat) : Rat := if x < 0 then -x else x

/-- Accumulator of `Genome.distance`'s loop: excess and disjoint counts,
summed absolute weight difference and match count. -/
structure DistAcc where
  excess : Nat
  disjoint : Nat
  weight_diff : Rat
  num_matches : Nat

/-- One iteration of the `for c1, c2 in zip(*genes)` loop of
`Genome.distance`.  (The `(none, none)` case is never produced by the
alignment; the source would crash there.) -/
def distStep (g1_max g2_max : Nat) (a : DistAcc) :
    Option ConnectionGene × Option ConnectionGene → DistAcc
  | (some c1, some c2) =>
      { a with
          weight_diff := a.weight_diff + ratAbs (c1.weight - c2.weight)
          num_matches := a.num_matches + 1 }
  | (some c1, none) =>
      if c1.id > g2_max then { a with excess := a.excess + 1 }
      else { a with disjoint := a.disjoint + 1 }
  | (none, some c2) =>
      if c2.id > g1_max then { a with excess := a.excess + 1 }
      else { a with disjoint := a.disjoint + 1 }
  | (none, none) => a

/-- `Genome.distance(other)`. -/
def Genome.distance (self other : Genome) : Rat :=
  let genes := alignZip self.connections other.connections
  let g1_max := maxInnov self.connections
  let g2_max := maxInnov other.connections
  let acc := genes.foldl (distStep g1_max g2_max) ⟨0, 0, 0, 0⟩
  let c1 := self.config.excess_genes_coefficient
  let c2 := self.config.disjoint_genes_coefficient
  let c3 := self.config.weight_difference_coefficient
  let n : Nat := max self.connections.length other.connections.length
  ((c1 * acc.excess + c2 * acc.disjoint) / n) + c3 * acc.weight_diff / acc.num_matches

/-- C8, spec side: a non-matching slot is excess when its identifier is
strictly greater than the maximum identifier of the genome lacking the
gene. -/
def slotExcess (g1_max g2_max : Nat) :
    Option ConnectionGene × Option ConnectionGene → Bool
  | (some c, none) => decide (c.id > g2_max)
  | (none, some c) => decide (c.id > g1_max)
  | _ => false

/-- C8, spec side: every other non-matching slot is disjoint. -/
def slotDisjoint (g1_max g2_max : Nat) :
    Option ConnectionGene × Option ConnectionGene → Bool
  | (some c, none) => decide (c.id ≤ g2_max)
  | (none, some c) => decide (c.id ≤ g1_max)
  | _ => false

/-- C8, spec side: a matching slot. -/
def slotMatch : Option ConnectionGene × Option ConnectionGene → Bool
  | (some _, some _) => true
  | _ => false

/-- C8, spec side: summed absolute weight difference over matching slots. -/
def specWeightDiff (slots : List (Option ConnectionGene × Option ConnectionGene)) : Rat :=
  (slots.map (fun p =>
    match p with
    | (some a, some b) => ratAbs (a.weight - b.weight)
    | _ => 0)).sum

/-- C8, spec side: the distance formula exactly as the claim words it. -/
def specDistance (a b : Genome) : Rat :=
  let slots := alignZip a.connections b.connections
  let m1 := maxInnov a.connections
  let m2 := maxInnov b.connections
  let E : Nat := slots.countP (slotExcess m1 m2)
  let D : Nat := slots.countP (slotDisjoint m1 m2)
  let M : Nat := slots.countP slotMatch
  let W : Rat := specWeightDiff slots
  (a.config.excess_genes_coefficient * E + a.config.disjoint_genes_coefficient * D) /
      (max a.connections.length b.connections.length : Nat)
    + a.config.weight_difference_coefficient * W / M

/-- The distance loop computes exactly the four spec-side aggregates. -/
theorem foldl_distStep (m1 m2 : Nat)
    (slots : List (Option ConnectionGene × Option ConnectionGene)) :
    ∀ a : DistAcc,
      slots.foldl (distStep m1 m2) a =
        ⟨a.excess + slots.countP (slotExcess m1 m2),
         a.disjoint + slots.countP (slotDisjoint m1 m2),
         a.weight_diff + specWeightDiff slots,
         a.num_matches + slots.countP slotMatch⟩ := by
  induction slots with
  | nil => intro a; simp [specWeightDiff]
  | cons p ps ih =>
    intro a
    rw [List.foldl_cons, ih]
    obtain ⟨o1, o2⟩ := p
    match o1, o2 with
    | some c1, some c2 =>
      simp only [distStep, List.countP_cons, slotExcess, slotDisjoint, slotMatch,
        specWeightDiff, List.map_cons, List.sum_cons, DistAcc.mk.injEq,
        if_false, Nat.add_zero, cond_false, Bool.false_eq_true, if_true, cond_true]
      and_intros <;> ring
    | some c1, none =>
      by_cases hc : c1.id > m2
      · have h2 : ¬ c1.id ≤ m2 := not_le_of_gt hc
        simp only [distStep, hc, h2, List.countP_cons, slotExcess, slotDisjoint, slotMatch,
          specWeightDiff, List.map_cons, List.sum_cons, DistAcc.mk.injEq, decide_true_eq_true,
          if_true, if_false, decide_eq_true_eq, decide_eq_false_iff_not, not_false_eq_true,
          Bool.false_eq_true, Nat.add_zero, ite_true, ite_false]
        and_intros <;> ring
      · have h2 : c1.id ≤ m2 := Nat.not_lt.mp hc
        simp only [distStep, hc, h2, List.countP_cons, slotExcess, slotDisjoint, slotMatch,
          specWeightDiff, List.map_cons, List.sum_cons, DistAcc.mk.injEq,
          if_true, if_false, decide_eq_true_eq, Bool.false_eq_true, Nat.add_zero,
          ite_true, ite_false]
        and_intros <;> ring
    | none, some c2 =>
      by_cases hc : c2.id > m1
      · have h2 : ¬ c2.id ≤ m1 := not_le_of_gt hc
        simp only [distStep, hc, h2, List.countP_cons, slotExcess, slotDisjoint, slotMatch,
          specWeightDiff, List.map_cons, List.sum_cons, DistAcc.mk.injEq,
          if_true, if_false, decide_eq_true_eq, decide_eq_false_iff_not, not_false_eq_true,
          Bool.false_eq_true, Nat.add_zero, ite_true, ite_false]
        and_intros <;> ring
      · have h2 : c2.id ≤ m1 := Nat.not_lt.mp hc
        simp only [distStep, hc, h2, List.countP_cons, slotExcess, slotDisjoint, slotMatch,
          specWeightDiff, List.map_cons, List.sum_cons, DistAcc.mk.injEq,
          if_true, if_false, decide_eq_true_eq, Bool.false_eq_true, Nat.add_zero,
          ite_true, ite_false]
        and_intros <;> ring
    | none, none =>
      simp only [distStep, List.countP_cons, slotExcess, slotDisjoint, slotMatch,
        specWeightDiff, List.map_cons, List.sum_cons, DistAcc.mk.injEq,
        Bool.false_eq_true, if_false, Nat.add_zero, ite_false]
      and_intros <;> ring

/-- C8: for genomes with at least one connection each and at least one
matching innovation identifier, `distance` returns exactly
`(c1 * excess + c2 * disjoint) / N + c3 * weight_diff / num_matches` with
the excess / disjoint classification worded by the claim. -/
theorem distance_formula (a b : Genome)
    (h1 : a.connections ≠ []) (h2 : b.connections ≠ [])
    (hm : 0 < (alignZip a.connections b.connections).countP slotMatch) :
    Genome.distance a b = specDistance a b := by
  simp only [Genome.distance, specDistance, foldl_distStep, Nat.zero_add, zero_add]

/-- Concrete genomes for the C8 witness (identifier pattern `[1,2,4]`
against `[1,3,4,5]`). -/
def gDA : Genome :=
  ⟨cfgW, [nodeW0], none, [nodeW1], [],
    [⟨1, nodeW0, nodeW1, 1, true⟩, ⟨2, nodeW0, nodeW1, 2, true⟩,
     ⟨4, nodeW0, nodeW1, 3, true⟩], 0, 0⟩

def gDB : Genome :=
  ⟨cfgW, [nodeW0], none, [nodeW1], [],
    [⟨1, nodeW0, nodeW1, 5, true⟩, ⟨3, nodeW0, nodeW1, 1, true⟩,
     ⟨4, nodeW0, nodeW1, 2, true⟩, ⟨5, nodeW0, nodeW1, 7, true⟩], 0, 0⟩

theorem distance_formula_witness :
    gDA.connections ≠ [] ∧ gDB.connections ≠ [] ∧
    0 < (alignZip gDA.connections gDB.connections).countP slotMatch ∧
    Genome.distance gDA gDB = specDistance gDA gDB :=
  ⟨by simp [gDA], by simp [gDB], by decide,
   distance_formula gDA gDB (by simp [gDA]) (by simp [gDB]) (by decide)⟩

/-! ### `Genome.__init__` and forward evaluation -/

/-- Input node genes created by `Genome.__init__`: ids `0 .. num_inputs-1`,
linear activation, configured initial activation. -/
def mkInputNodes (num_inputs : Nat) (cfg : Config) : List NodeGene :=
  (List.range num_inputs).map (fun i =>
    ⟨i, .INPUT, linearAct, cfg.initial_node_activation, cfg.initial_node_activation⟩)

/-- The bias node of `Genome.__init__` (present iff `config.bias_value` is
not `None`), id `num_inputs`, linear activation, activation fixed at the
bias value. -/
def mkBiasNode (num_inputs : Nat) (cfg : Config) : Option NodeGene :=
  cfg.bias_value.map (fun v => ⟨num_inputs, .BIAS, linearAct, v, v⟩)

/-- The output-node loop of `Genome.__init__`: creates each output node in
turn and, when `initial_connections` is set, connects every input node to
it (in input order) before the next output node is created.  The `Nat` in
the accumulator counts the uniform weight draws consumed so far; `wOracle`
gives each draw's outcome.  (The `add_connection` calls cannot fail here —
fresh pairs into OUTPUT nodes — so the error fallback is unreachable.) -/
def initOutputLoop (cfg : Config) (initial_connections : Bool) (wOracle : Nat → Rat) :
    Nat → Nat → Genome × IdHandler × Nat → Genome × IdHandler × Nat
  | _, 0, acc => acc
  | nextId, m + 1, (g, hd, wk) =>
    let out : NodeGene := ⟨nextId, .OUTPUT, cfg.out_nodes_activation,
      cfg.initial_node_activation, cfg.initial_node_activation⟩
    let g1 : Genome := { g with output_nodes := g.output_nodes ++ [out] }
    let acc2 : Genome × IdHandler × Nat :=
      if initial_connections then
        g1.input_nodes.foldl (fun (acc3 : Genome × IdHandler × Nat) inn =>
          match add_connection acc3.1 acc3.2.1 inn out true none none (wOracle acc3.2.2) with
          | .ok p => (p.1, p.2, acc3.2.2 + 1)
          | .error _ => (acc3.1, acc3.2.1, acc3.2.2 + 1)) (g1, hd, wk)
      else (g1, hd, wk)
    initOutputLoop cfg initial_connections wOracle (nextId + 1) m acc2

/-- `Genome.__init__(num_inputs, num_outputs, id_handler, config,
genome_id=None, initial_connections)`: canonical input nodes, optional bias
node, then the output-node loop; a genome id is consumed from the handler. -/
def Genome.buildInit (num_inputs num_outputs : Nat) (hd : IdHandler) (cfg : Config)
    (initial_connections : Bool) (wOracle : Nat → Rat) : Genome × IdHandler :=
  let hd0 := (hd.next_genome_id).2
  let g0 : Genome :=
    { config := cfg
      input_nodes := mkInputNodes num_inputs cfg
      bias_node := mkBiasNode num_inputs cfg
      output_nodes := []
      hidden_nodes := []
      connections := []
      fitness := 0
      adj_fitness := 0 }
  let r := initOutputLoop cfg initial_connections wOracle
    (num_inputs + (if cfg.bias_value.isSome then 1 else 0)) num_outputs (g0, hd0, 0)
  (r.1, r.2.1)

/-- `Genome.shallow_copy()`: a fresh genome over the same configuration
with the same numbers of input and output nodes, no hidden nodes and no
connections. -/
def Genome.shallow_copy (g : Genome) (hd : IdHandler) : Genome × IdHandler :=
  Genome.buildInit g.input_nodes.length g.output_nodes.length hd g.config false (fun _ => 0)

/-- Per-call evaluation state of `Genome.process`: the nodes' current
activation values (`node.activation` in the source, newest first) and the
`_activated_nodes` marks. -/
structure PState where
  acts : List (Nat × Rat)
  activated : List Nat

/-- Current activation value of node `nid` (`node.activation`). -/
def PState.act (st : PState) (nid : Nat) : Rat :=
  match st.acts.find? (fun p => p.1 == nid) with
  | some p => p.2
  | none => 0

/-- `Genome._process_node(n)`: demand-driven recursive activation.  INPUT
and BIAS nodes, and nodes already marked activated, return their current
activation; otherwise the node is marked first (so recurrent references see
the previous activation), the weighted sum over enabled incoming
connections is computed recursively, and the node's activation function is
applied and stored.  The fuel only bounds the recursion depth for Lean;
`process` passes one more than the node count, which the marking discipline
never exhausts. -/
def processNode (g : Genome) : Nat → PState → NodeGene → PState × Rat
  | 0, st, n => (st, st.act n.id)
  | fuel + 1, st, n =>
    if n.type = .INPUT ∨ n.type = .BIAS then (st, st.act n.id)
    else if st.activated.contains n.id then (st, st.act n.id)
    else
      let st1 : PState := { st with activated := n.id :: st.activated }
      let res := (inConnections g n.id).foldl
        (fun (p : PState × Rat) c =>
          if c.enabled then
            let q := processNode g fuel p.1 c.from_node
            (q.1, p.2 + c.weight * q.2)
          else p) (st1, 0)
      let a := n.activation_func res.2
      ({ res.1 with acts := (n.id, a) :: res.1.acts }, a)

/-- `Genome.process(X)`: checks the input length, feeds the inputs, clears
the activation marks, then evaluates each output node in declaration
order. -/
def Genome.process (g : Genome) (X : List Rat) : Except GError (List Rat) :=
  if X.length ≠ g.input_nodes.length then .error .InvalidInputError
  else
    let st0 : PState :=
      { acts := (g.input_nodes.zip X).map (fun p => (p.1.id, p.1.activation_func p.2))
          ++ g.nodes.map (fun n => (n.id, n.activation))
        activated := [] }
    let res := g.output_nodes.foldl
      (fun (p : PState × List Rat) outNode =>
        let q := processNode g (g.nodes.length + 1) p.1 outNode
        (q.1, p.2 ++ [q.2])) (st0, [])
    .ok res.2

/-- The output loop of `process` appends exactly one activation per output
node. -/
theorem process_fold_length (g : Genome) (fuel : Nat) :
    ∀ (l : List NodeGene) (st : PState) (acc : List Rat),
      ((l.foldl (fun (p : PState × List Rat) outNode =>
          let q := processNode g fuel p.1 outNode
          (q.1, p.2 ++ [q.2])) (st, acc)).2).length = acc.length + l.length := by
  intro l
  induction l with
  | nil => intro st acc; simp
  | cons n ns ih =>
    intro st acc
    rw [List.foldl_cons]
    rw [ih]
    simp
    omega

/-- C9: `process` fails with the invalid-input condition exactly when the
input length differs from the number of input nodes, and on success
returns one activation per output node (built in output-node declaration
order). -/
theorem process_contract (g : Genome) (X : List Rat) :
    (Genome.process g X = .error .InvalidInputError ↔ X.length ≠ g.input_nodes.length) ∧
    (∀ ys, Genome.process g X = .ok ys → ys.length = g.output_nodes.length) := by
  by_cases h : X.length = g.input_nodes.length
  · constructor
    · constructor
      · intro herr
        simp only [Genome.process, h, ne_eq, not_true_eq_false, if_false, ite_false] at herr
        exact Except.noConfusion herr
      · intro hne; exact absurd h hne
    · intro ys hok
      simp only [Genome.process, h, ne_eq, not_true_eq_false, if_false, ite_false,
        Except.ok.injEq] at hok
      rw [← hok]
      rw [process_fold_length]
      simp
  · constructor
    · constructor
      · intro _; exact h
      · intro _
        simp only [Genome.process, h, ne_eq, not_false_eq_true, if_true, ite_true]
    · intro ys hok
      simp only [Genome.process, h, ne_eq, not_false_eq_true, if_true, ite_true] at hok
      exact Except.noConfusion hok

theorem process_contract_witness :
    Genome.process gW [1, 2] = .error .InvalidInputError ∧
    [(0 : Rat)].length = gWempty.output_nodes.length :=
  ⟨(process_contract gW [1, 2]).1.mpr (by decide),
   (process_contract gWempty [3]).2 [0] rfl⟩

/-! ### C3: full-connectivity forward pass -/

/-- C3 configuration: identity activations everywhere, zero initial node
activation, bias value `1`. -/
def cfgC3 : Config := ⟨linearAct, linearAct, 0, some 1, 1, 1, 1⟩

def hdC3 : IdHandler := IdHandler.init 2 1 true

/-- The C3 genome: built by `Genome.__init__` with 2 inputs, 1 output,
bias, full initial input-to-output connectivity, every drawn connection
weight equal to `1`. -/
def gC3 : Genome := (Genome.buildInit 2 1 hdC3 cfgC3 true (fun _ => 1)).1

/-- The constructed C3 genome, spelled out: note the bias node receives no
initial connection — `Genome.__init__` connects only `self._input_nodes`
to the output nodes. -/
theorem gC3_val : gC3 =
    ⟨cfgC3,
     [⟨0, .INPUT, linearAct, 0, 0⟩, ⟨1, .INPUT, linearAct, 0, 0⟩],
     some ⟨2, .BIAS, linearAct, 1, 1⟩,
     [⟨3, .OUTPUT, linearAct, 0, 0⟩],
     [],
     [⟨2, ⟨0, .INPUT, linearAct, 0, 0⟩, ⟨3, .OUTPUT, linearAct, 0, 0⟩, 1, true⟩,
      ⟨3, ⟨1, .INPUT, linearAct, 0, 0⟩, ⟨3, .OUTPUT, linearAct, 0, 0⟩, 1, true⟩],
     0, 0⟩ := by
  rfl

/-- The C3 forward pass, evaluated: `2 + 3 = 5` — the bias node
contributes nothing because it is not connected. -/
theorem process_gC3_eval : Genome.process gC3 [2, 3] = .ok [5] := by
  rw [gC3_val]
  norm_num [Genome.process, Genome.nodes, processNode, PState.act, inConnections,
    List.filter, linearAct, cfgC3]
  decide

/-- C3 (counterexample): the claimed output `6.0` is not what `process`
returns on the 2-input / 1-output / bias genome with all weights `1`. -/
theorem process_gC3_not_six : Genome.process gC3 [2, 3] ≠ .ok [6] := by
  rw [process_gC3_eval]
  intro h
  simp only [Except.ok.injEq, List.cons.injEq, and_true] at h
  norm_num at h

/-- C3 (amended): the call returns `5.0` — the initial connectivity links
only the input nodes to the outputs, so the bias node (value `1.0`, no
outgoing connection) contributes nothing and the output is `2 + 3 = 5`. -/
theorem process_gC3_returns_five : Genome.process gC3 [2, 3] = .ok [5] :=
  process_gC3_eval

/-! ### C10: `Genome.mutate_weights` -/

/-- The `for connection in self.connections` loop of
`Genome.mutate_weights`, positionally indexed so the oracles can name each
draw: `reset?` is the `utils.chance(weight_reset_chance)` outcome, `newW`
the uniform redraw, `perturb` the uniform perturbation factor (the source
adds `weight * uniform(-pc, pc)` to the weight). -/
def mutateConnsFrom (reset? : Nat → Bool) (newW perturb : Nat → Rat) :
    Nat → List ConnectionGene → List ConnectionGene
  | _, [] => []
  | i, c :: cs =>
    (if reset? i then { c with weight := newW i }
     else { c with weight := c.weight + c.weight * perturb i }) ::
      mutateConnsFrom reset? newW perturb (i + 1) cs

/-- `Genome.mutate_weights()`. -/
def Genome.mutate_weights (g : Genome) (reset? : Nat → Bool) (newW perturb : Nat → Rat) :
    Genome :=
  { g with connections := mutateConnsFrom reset? newW perturb 0 g.connections }

/-- The weight-mutation loop preserves everything but the weights. -/
theorem mutateConnsFrom_map (reset? : Nat → Bool) (newW perturb : Nat → Rat) :
    ∀ (i : Nat) (l : List ConnectionGene),
      (mutateConnsFrom reset? newW perturb i l).map
          (fun c => (c.id, c.from_node, c.to_node, c.enabled))
        = l.map (fun c => (c.id, c.from_node, c.to_node, c.enabled)) := by
  intro i l
  induction l generalizing i with
  | nil => simp [mutateConnsFrom]
  | cons c cs ih =>
    by_cases h : reset? i
    · simp [mutateConnsFrom, h, ih]
    · simp [mutateConnsFrom, h, ih]

/-- C10: `mutate_weights` modifies only connection weights — all four node
collections are unchanged, and the connection sequence keeps its length,
order, innovation identifiers, endpoints and enabled flags. -/
theorem mutate_weights_frame (g : Genome) (reset? : Nat → Bool) (newW perturb : Nat → Rat) :
    (g.mutate_weights reset? newW perturb).input_nodes = g.input_nodes ∧
    (g.mutate_weights reset? newW perturb).bias_node = g.bias_node ∧
    (g.mutate_weights reset? newW perturb).output_nodes = g.output_nodes ∧
    (g.mutate_weights reset? newW perturb).hidden_nodes = g.hidden_nodes ∧
    (g.mutate_weights reset? newW perturb).connections.map
        (fun c => (c.id, c.from_node, c.to_node, c.enabled))
      = g.connections.map (fun c => (c.id, c.from_node, c.to_node, c.enabled)) :=
  ⟨rfl, rfl, rfl, rfl, mutateConnsFrom_map reset? newW perturb 0 g.connections⟩

/-! ### C7: `Genome.add_random_hidden_node` -/

/-- `connection_exists` holds exactly when some connection of the genome
links the two node ids. -/
theorem connection_exists_iff (g : Genome) (src dest : NodeGene) :
    connection_exists g src dest = true ↔
      ∃ c ∈ g.connections, c.from_node.id = src.id ∧ c.to_node.id = dest.id := by
  simp only [connection_exists, outConnections, List.any_eq_true, List.mem_filter,
    beq_iff_eq]
  constructor
  · rintro ⟨c, ⟨hc, h1⟩, h2⟩
    exact ⟨c, hc, h1, h2⟩
  · rintro ⟨c, hc, h1, h2⟩
    exact ⟨c, ⟨hc, h1⟩, h2⟩

/-- `connection_exists` is false when no connection links the two ids. -/
theorem connection_exists_eq_false_of (g : Genome) (src dest : NodeGene)
    (h : ∀ c ∈ g.connections, ¬(c.from_node.id = src.id ∧ c.to_node.id = dest.id)) :
    connection_exists g src dest = false := by
  rw [Bool.eq_false_iff]
  intro hex
  obtain ⟨c, hc, h1, h2⟩ := (connection_exists_iff g src dest).mp hex
  exact h c hc ⟨h1, h2⟩

/-- Successful `add_connection` with handler-allocated id and supplied
weight, spelled out. -/
theorem add_connection_ok (g : Genome) (hd : IdHandler) (src dest : NodeGene)
    (en : Bool) (w wd : Rat)
    (h1 : connection_exists g src dest = false)
    (h2 : dest.type ≠ .BIAS) (h3 : dest.type ≠ .INPUT) :
    add_connection g hd src dest en none (some w) wd
      = .ok ({ g with connections := g.connections ++
            [{ id := (hd.next_connection_id src.id dest.id).1,
               from_node := src, to_node := dest, weight := w, enabled := en }] },
          (hd.next_connection_id src.id dest.id).2) := by
  have hor : ¬(dest.type = NodeType.BIAS ∨ dest.type = NodeType.INPUT) := by
    rintro (h | h)
    · exact h2 h
    · exact h3 h
  unfold add_connection
  rw [if_neg (by rw [h1]; exact Bool.false_ne_true)]
  rw [if_neg hor]
  rfl

/-- The id `add_random_hidden_node` would give a hidden node splitting the
`k`-th connection (the node-split allocator's answer for the split
connection's endpoints). -/
def newHiddenId (g : Genome) (hd : IdHandler) (k : Nat) : Nat :=
  match g.connections[k]? with
  | none => 0
  | some orig => (hd.next_hidden_node_id orig.from_node.id orig.to_node.id).1

/-- The hidden node created by `add_random_hidden_node` once its id is
known: HIDDEN type, configured hidden activation function and initial
activation. -/
abbrev splitNode (g : Genome) (nid : Nat) : NodeGene :=
  ⟨nid, .HIDDEN, g.config.hidden_nodes_activation, g.config.initial_node_activation,
    g.config.initial_node_activation⟩

/-- `Genome.add_random_hidden_node()`, with the uniform draw over
`self.connections` embedded as the drawn index `k` (numpy fails with
`ValueError` on an empty sequence).  The drawn connection is disabled
first; the new hidden node's id comes from the id handler's node-split
allocator and the node is appended to the hidden list; then the two new
connections are added (ids allocated by the handler, weights `1` and the
split connection's weight). -/
def Genome.add_random_hidden_node (g : Genome) (hd : IdHandler) (k : Nat) :
    Except GError (Genome × IdHandler × NodeGene) :=
  match g.connections[k]? with
  | none => .error .ValueError
  | some orig =>
    let g1 : Genome := { g with connections := g.connections.set k { orig with enabled := false } }
    let p := hd.next_hidden_node_id orig.from_node.id orig.to_node.id
    let newNode : NodeGene := splitNode g p.1
    let g2 : Genome := { g1 with hidden_nodes := g1.hidden_nodes ++ [newNode] }
    match add_connection g2 p.2 orig.from_node newNode true none (some 1) 0 with
    | .error e => .error e
    | .ok (g3, hd2) =>
      match add_connection g3 hd2 newNode orig.to_node true none (some orig.weight) 0 with
      | .error e => .error e
      | .ok (g4, hd3) => .ok (g4, hd3, newNode)

/-- The result of `add_random_hidden_node`, computed, for a drawn
connection `orig` at index `k`, allocator answer `(nid, hd1)`, a fresh new
node id and a legal destination. -/
theorem add_random_hidden_node_core (g : Genome) (hd hd1 : IdHandler)
    (orig : ConnectionGene) (k nid : Nat)
    (horig : g.connections[k]? = some orig)
    (hpq : hd.next_hidden_node_id orig.from_node.id orig.to_node.id = (nid, hd1))
    (hfresh : ∀ c ∈ g.connections, c.from_node.id ≠ nid ∧ c.to_node.id ≠ nid)
    (hdest : orig.to_node.type ≠ .BIAS ∧ orig.to_node.type ≠ .INPUT) :
    Genome.add_random_hidden_node g hd k = .ok
      ({ g with
          connections :=
            (g.connections.set k { orig with enabled := false } ++
              [{ id := (hd1.next_connection_id orig.from_node.id nid).1,
                 from_node := orig.from_node, to_node := splitNode g nid,
                 weight := 1, enabled := true }]) ++
              [{ id := ((hd1.next_connection_id orig.from_node.id nid).2.next_connection_id
                    nid orig.to_node.id).1,
                 from_node := splitNode g nid, to_node := orig.to_node,
                 weight := orig.weight, enabled := true }]
          hidden_nodes := g.hidden_nodes ++ [splitNode g nid] },
        ((hd1.next_connection_id orig.from_node.id nid).2.next_connection_id
            nid orig.to_node.id).2,
        splitNode g nid) := by
  have hmem : orig ∈ g.connections := by
    obtain ⟨hn, he⟩ := List.getElem?_eq_some.mp horig
    exact he ▸ List.getElem_mem hn
  have hsetfresh : ∀ c ∈ g.connections.set k { orig with enabled := false },
      c.from_node.id ≠ nid ∧ c.to_node.id ≠ nid := by
    intro c hc
    rcases List.mem_or_eq_of_mem_set hc with hmemc | hceq
    · exact hfresh c hmemc
    · rw [hceq]
      exact hfresh orig hmem
  have hex1 : connection_exists
      ({ g with
          connections := g.connections.set k { orig with enabled := false }
          hidden_nodes := g.hidden_nodes ++ [splitNode g nid] })
      orig.from_node (splitNode g nid) = false := by
    refine connection_exists_eq_false_of _ _ _ ?_
    intro c hc hpair
    exact (hsetfresh c hc).2 hpair.2
  have hex2 : connection_exists
      ({ g with
          connections :=
            g.connections.set k { orig with enabled := false } ++
              [{ id := (hd1.next_connection_id orig.from_node.id nid).1,
                 from_node := orig.from_node, to_node := splitNode g nid,
                 weight := 1, enabled := true }]
          hidden_nodes := g.hidden_nodes ++ [splitNode g nid] })
      (splitNode g nid) orig.to_node = false := by
    refine connection_exists_eq_false_of _ _ _ ?_
    intro c hc hpair
    rcases List.mem_append.mp hc with hmemc | hsingle
    · exact (hsetfresh c hmemc).1 hpair.1
    · rw [List.mem_singleton.mp hsingle] at hpair
      exact (hfresh orig hmem).1 (by simpa using hpair.1)
  rw [Genome.add_random_hidden_node.eq_def, horig]
  simp only
  rw [hpq]
  simp only
  rw [add_connection_ok _ _ _ _ _ _ _ hex1 (fun h => NodeType.noConfusion h)
    (fun h => NodeType.noConfusion h)]
  simp only
  rw [add_connection_ok _ _ _ _ _ _ _ hex2 hdest.1 hdest.2]

/-- C7: on a genome with at least one connection (drawn index `k` in
range), provided the allocator's new node id is fresh for the genome's
connection endpoints and the split connection's destination is (as the
`add_connection` invariant guarantees) not a BIAS/INPUT node, the call
succeeds; the node count grows by exactly 1, the connection count by
exactly 2, the drawn connection — and only it — has its enabled flag set
to disabled, and the two appended connections carry weight `1.0` (source
to new node, enabled) and the split connection's weight (new node to
destination, enabled). -/
theorem add_random_hidden_node_spec (g : Genome) (hd : IdHandler) (k : Nat)
    (hk : k < g.connections.length)
    (hfresh : ∀ c ∈ g.connections,
      c.from_node.id ≠ newHiddenId g hd k ∧ c.to_node.id ≠ newHiddenId g hd k)
    (hdest : (g.connections[k]).to_node.type ≠ .BIAS ∧
             (g.connections[k]).to_node.type ≠ .INPUT) :
    ∃ g' hd' nn cA cB,
      Genome.add_random_hidden_node g hd k = .ok (g', hd', nn) ∧
      nn.type = .HIDDEN ∧ nn.id = newHiddenId g hd k ∧
      g'.nodes.length = g.nodes.length + 1 ∧
      g'.connections.length = g.connections.length + 2 ∧
      g'.connections
        = g.connections.set k { g.connections[k] with enabled := false } ++ [cA, cB] ∧
      cA.from_node = (g.connections[k]).from_node ∧ cA.to_node = nn ∧
      cA.weight = 1 ∧ cA.enabled = true ∧
      cB.from_node = nn ∧ cB.to_node = (g.connections[k]).to_node ∧
      cB.weight = (g.connections[k]).weight ∧ cB.enabled = true := by
  have horig : g.connections[k]? = some (g.connections[k]) := List.getElem?_eq_getElem hk
  have hnid : newHiddenId g hd k
      = (hd.next_hidden_node_id (g.connections[k]).from_node.id
          (g.connections[k]).to_node.id).1 := by
    rw [newHiddenId, horig]
  have hfr : ∀ c ∈ g.connections,
      c.from_node.id ≠ (hd.next_hidden_node_id (g.connections[k]).from_node.id
          (g.connections[k]).to_node.id).1 ∧
      c.to_node.id ≠ (hd.next_hidden_node_id (g.connections[k]).from_node.id
          (g.connections[k]).to_node.id).1 := by
    intro c hc
    have h := hfresh c hc
    rw [hnid] at h
    exact h
  have hcore := add_random_hidden_node_core g hd
    (hd.next_hidden_node_id (g.connections[k]).from_node.id
        (g.connections[k]).to_node.id).2
    (g.connections[k]) k
    (hd.next_hidden_node_id (g.connections[k]).from_node.id
        (g.connections[k]).to_node.id).1
    horig rfl hfr hdest
  refine ⟨_, _, _,
    { id := (((hd.next_hidden_node_id (g.connections[k]).from_node.id
            (g.connections[k]).to_node.id).2).next_connection_id
          (g.connections[k]).from_node.id
          (hd.next_hidden_node_id (g.connections[k]).from_node.id
            (g.connections[k]).to_node.id).1).1
      from_node := (g.connections[k]).from_node
      to_node := splitNode g (hd.next_hidden_node_id (g.connections[k]).from_node.id
          (g.connections[k]).to_node.id).1
      weight := 1, enabled := true },
    { id := ((((hd.next_hidden_node_id (g.connections[k]).from_node.id
              (g.connections[k]).to_node.id).2).next_connection_id
            (g.connections[k]).from_node.id
            (hd.next_hidden_node_id (g.connections[k]).from_node.id
              (g.connections[k]).to_node.id).1).2.next_connection_id
          (hd.next_hidden_node_id (g.connections[k]).from_node.id
            (g.connections[k]).to_node.id).1
          (g.connections[k]).to_node.id).1
      from_node := splitNode g (hd.next_hidden_node_id (g.connections[k]).from_node.id
          (g.connections[k]).to_node.id).1
      to_node := (g.connections[k]).to_node
      weight := (g.connections[k]).weight, enabled := true },
    hcore, rfl, hnid.symm, ?_, ?_, ?_,
    rfl, rfl, rfl, rfl, rfl, rfl, rfl, rfl⟩
  · simp only [Genome.nodes, List.length_append, List.length_cons, List.length_nil]
    omega
  · simp only [List.length_append, List.length_set, List.length_cons, List.length_nil]
  · simp only [List.append_assoc, List.cons_append, List.nil_append]

/-- Id handler with a bias slot so the hidden-node counter starts above the
ids of `gW`'s nodes. -/
def hdW2 : IdHandler := IdHandler.init 1 1 true

theorem add_random_hidden_node_spec_witness :
    ∃ g' hd' nn cA cB,
      Genome.add_random_hidden_node gW hdW2 0 = .ok (g', hd', nn) ∧
      nn.type = .HIDDEN ∧ nn.id = newHiddenId gW hdW2 0 ∧
      g'.nodes.length = gW.nodes.length + 1 ∧
      g'.connections.length = gW.connections.length + 2 ∧
      g'.connections
        = gW.connections.set 0 { gW.connections[0] with enabled := false } ++ [cA, cB] ∧
      cA.from_node = (gW.connections[0]).from_node ∧ cA.to_node = nn ∧
      cA.weight = 1 ∧ cA.enabled = true ∧
      cB.from_node = nn ∧ cB.to_node = (gW.connections[0]).to_node ∧
      cB.weight = (gW.connections[0]).weight ∧ cB.enabled = true :=
  add_random_hidden_node_spec gW hdW2 0 (by decide) (by decide) (by decide)

/-! ### Crossover: `mate_genomes` -/

/-- Offspring node lookup by id (`added_nodes[...]` in the source — the
dict mirrors `new_gen.nodes()` at all times: it starts as the shallow
copy's nodes, and every insertion into it also appends the node to the
offspring's hidden list). -/
def lookupNode (g : Genome) (nid : Nat) : Option NodeGene :=
  g.nodes.find? (fun n => n.id == nid)

/-- `n.id in added_nodes`. -/
def hasNodeId (g : Genome) (nid : Nat) : Bool :=
  g.nodes.any (fun n => n.id == nid)

/-- `if n.type == HIDDEN and n.id not in added_nodes:` — shallow-copy one
endpoint hidden node of the chosen gene into the offspring. -/
def addHiddenIfNeeded (g : Genome) (n : NodeGene) : Genome :=
  if n.type = .HIDDEN ∧ ¬hasNodeId g n.id then
    { g with hidden_nodes := g.hidden_nodes ++ [n.shallow_copy] }
  else g

/-- The `(c1 is not None and not c1.enabled) or (c2 is not None and not
c2.enabled)` test of the crossover loop. -/
def disabledInEither (c1 c2 : Option ConnectionGene) : Bool :=
  (match c1 with | some c => !c.enabled | none => false) ||
  (match c2 with | some c => !c.enabled | none => false)

/-- One aligned slot of the `mate_genomes` loop, over the accumulated
offspring and the slot index `i` (used to address the random draws:
`pick i` is the `np.random.choice((c1, c2))` outcome — `true` picks `c1` —
and `chanceO i` the `utils.chance(disable_inherited_connection_chance)`
outcome; `utils.chance` is modelled from the spec as a Boolean draw since
`utils.py` is not under `src/`).  The source computes
`enabled = (disabled-in-either) and chance` and then adds the connection,
silently skipping only `ConnectionExistsError`; a failed `added_nodes`
lookup or a connection into a BIAS/INPUT node would propagate. -/
def mateStep (gen1 gen2 : Genome) (pick chanceO : Nat → Bool)
    (acc : Genome × Nat) (slot : Option ConnectionGene × Option ConnectionGene) :
    Except GError (Genome × Nat) :=
  let g := acc.1
  let i := acc.2
  let c1 := slot.1
  let c2 := slot.2
  if c1.isNone ∧ gen1.adj_fitness > gen2.adj_fitness then .ok (g, i + 1)
  else if c2.isNone ∧ gen2.adj_fitness > gen1.adj_fitness then .ok (g, i + 1)
  else
    match (if pick i then c1 else c2) with
    | none => .ok (g, i + 1)
    | some c =>
      let gA := addHiddenIfNeeded g c.from_node
      let gB := addHiddenIfNeeded gA c.to_node
      let en := disabledInEither c1 c2 && chanceO i
      match lookupNode gB c.from_node.id, lookupNode gB c.to_node.id with
      | some s, some d =>
        match add_connection gB (IdHandler.init 0 0 false) s d en (some c.id) (some c.weight) 0 with
        | .ok p => .ok (p.1, i + 1)
        | .error .ConnectionExistsError => .ok (gB, i + 1)
        | .error e => .error e
      | _, _ => .error .KeyError

/-- `mate_genomes(gen1, gen2)`: aligns the parents' connections, starts
from a shallow copy of `gen1`, and folds the crossover step over the
aligned slots. -/
def mate_genomes (gen1 gen2 : Genome) (hd : IdHandler) (pick chanceO : Nat → Bool) :
    Except GError (Genome × IdHandler) :=
  let slots := alignZip gen1.connections gen2.connections
  let ng := gen1.shallow_copy hd
  (List.foldlM (mateStep gen1 gen2 pick chanceO) (ng.1, 0) slots).map
    (fun p => (p.1, ng.2))

/-- Parents for the C1 code-bug evaluation: identical single-connection
genomes, the connection enabled in both, equal adjusted fitness. -/
def gM1 : Genome := ⟨cfgW, [nodeW0], none, [nodeW1], [], [⟨7, nodeW0, nodeW1, 2, true⟩], 0, 0⟩

def gM2 : Genome := ⟨cfgW, [nodeW0], none, [nodeW1], [], [⟨7, nodeW0, nodeW1, 3, true⟩], 0, 0⟩

/-- C1 (code bug): mating two parents whose aligned gene is enabled in
both, the offspring's copy comes out disabled — for every chance outcome
(`true` here; `false` below gives the same) — because the source computes
`enabled = (disabled-in-either) and chance` instead of applying the
disable chance only to genes disabled in a parent. -/
theorem mate_enabled_in_both_parents_added_disabled :
    (mate_genomes gM1 gM2 hdW (fun _ => true) (fun _ => true)).map
        (fun p => p.1.connections.map (fun c => c.enabled)) = .ok [false] ∧
    (mate_genomes gM1 gM2 hdW (fun _ => true) (fun _ => false)).map
        (fun p => p.1.connections.map (fun c => c.enabled)) = .ok [false] ∧
    gM1.connections.map (fun c => c.enabled) = [true] ∧
    gM2.connections.map (fun c => c.enabled) = [true] :=
  ⟨rfl, rfl, rfl, rfl⟩

/-- Parents for the C4 counterexample: `gM1lack` has no connections and
adjusted fitness 1; `gM2own` owns gene 7 and has strictly higher adjusted
fitness 5. -/
def gM1lack : Genome := ⟨cfgW, [nodeW0], none, [nodeW1], [], [], 0, 1⟩

def gM2own : Genome := ⟨cfgW, [nodeW0], none, [nodeW1], [], [⟨7, nodeW0, nodeW1, 3, true⟩], 0, 5⟩

/-- C4 (counterexample): the aligned slot has the gene only in `gen2`, and
`gen2` — the owning parent — has strictly higher adjusted fitness; the
claim says the gene is dropped, but with the random choice selecting the
gene it is added to the offspring (innovation id 7 present). -/
theorem mate_dominant_owner_gene_not_dropped :
    gM1lack.adj_fitness < gM2own.adj_fitness ∧
    (mate_genomes gM1lack gM2own hdW (fun _ => false) (fun _ => true)).map
        (fun p => p.1.connections.map (fun c => c.id)) = .ok [7] :=
  ⟨by decide, rfl⟩

/-- C4 (amended): a slot's gene is dropped — the offspring is returned
unchanged by that slot — when the parent *lacking* the gene has strictly
higher adjusted fitness (the source's cases 1 and 2); when the owning
parent is the fitter one the slot falls through to the random choice. -/
theorem mate_drops_gene_when_lacking_parent_fitter
    (gen1 gen2 : Genome) (pick chanceO : Nat → Bool)
    (g : Genome) (i : Nat) (c : ConnectionGene) :
    (gen1.adj_fitness > gen2.adj_fitness →
      mateStep gen1 gen2 pick chanceO (g, i) (none, some c) = .ok (g, i + 1)) ∧
    (gen2.adj_fitness > gen1.adj_fitness →
      mateStep gen1 gen2 pick chanceO (g, i) (some c, none) = .ok (g, i + 1)) := by
  constructor
  · intro h
    simp [mateStep, h]
  · intro h
    simp [mateStep, h, lt_asymm h]

theorem mate_drops_gene_when_lacking_parent_fitter_witness :
    mateStep gM2own gM1lack (fun _ => true) (fun _ => true) (gM1lack, 0)
        (none, some ⟨7, nodeW0, nodeW1, 3, true⟩) = .ok (gM1lack, 1) ∧
    mateStep gM1lack gM2own (fun _ => true) (fun _ => true) (gM1lack, 0)
        (some ⟨7, nodeW0, nodeW1, 3, true⟩, none) = .ok (gM1lack, 1) :=
  ⟨(mate_drops_gene_when_lacking_parent_fitter gM2own gM1lack (fun _ => true)
      (fun _ => true) gM1lack 0 ⟨7, nodeW0, nodeW1, 3, true⟩).1 (by decide),
   (mate_drops_gene_when_lacking_parent_fitter gM1lack gM2own (fun _ => true)
      (fun _ => true) gM1lack 0 ⟨7, nodeW0, nodeW1, 3, true⟩).2 (by decide)⟩

/-! ### C5: `mate_genomes` never duplicates a (source, destination) pair -/

/-- The offspring's (source id, destination id) pairs. -/
def pairList (g : Genome) : List (Nat × Nat) :=
  g.connections.map (fun c => (c.from_node.id, c.to_node.id))

/-- (id, type) keys of consecutive OUTPUT nodes starting at `start`. -/
def outputKeysFrom : Nat → Nat → List (Nat × NodeType)
  | _, 0 => []
  | start, n + 1 => (start, NodeType.OUTPUT) :: outputKeysFrom (start + 1) n

/-- (id, type) keys of the base (input / bias / output) nodes a fresh
`Genome.__init__` produces. -/
def initBase (ni no : Nat) (hasBias : Bool) : List (Nat × NodeType) :=
  (List.range ni).map (fun i => (i, NodeType.INPUT)) ++
  (if hasBias then [(ni, NodeType.BIAS)] else []) ++
  outputKeysFrom (ni + (if hasBias then 1 else 0)) no

/-- (id, type) keys of a genome's base (non-hidden) nodes. -/
def baseKeys (g : Genome) : List (Nat × NodeType) :=
  (g.input_nodes ++ g.bias_node.toList ++ g.output_nodes).map (fun n => (n.id, n.type))

/-- The output nodes a fresh `Genome.__init__` produces, starting at node
id `start`. -/
def mkOutputNodesFrom (cfg : Config) : Nat → Nat → List NodeGene
  | _, 0 => []
  | start, n + 1 =>
    ⟨start, .OUTPUT, cfg.out_nodes_activation, cfg.initial_node_activation,
      cfg.initial_node_activation⟩ :: mkOutputNodesFrom cfg (start + 1) n

/-- Without initial connections, the output loop only appends the output
nodes. -/
theorem initOutputLoop_false (cfg : Config) (w : Nat → Rat) :
    ∀ (m nextId : Nat) (g : Genome) (hd : IdHandler) (wk : Nat),
      initOutputLoop cfg false w nextId m (g, hd, wk)
        = ({ g with output_nodes := g.output_nodes ++ mkOutputNodesFrom cfg nextId m },
           hd, wk) := by
  intro m
  induction m with
  | zero =>
    intro nextId g hd wk
    simp [initOutputLoop, mkOutputNodesFrom]
  | succ m ih =>
    intro nextId g hd wk
    rw [initOutputLoop]
    simp only [Bool.false_eq_true, if_false, ite_false]
    rw [ih]
    simp [mkOutputNodesFrom, List.append_assoc]

/-- `Genome.__init__` without initial connections, spelled out. -/
theorem buildInit_false (ni no : Nat) (hd : IdHandler) (cfg : Config) (w : Nat → Rat) :
    Genome.buildInit ni no hd cfg false w
      = ({ config := cfg
           input_nodes := mkInputNodes ni cfg
           bias_node := mkBiasNode ni cfg
           output_nodes :=
             mkOutputNodesFrom cfg (ni + (if cfg.bias_value.isSome then 1 else 0)) no
           hidden_nodes := []
           connections := []
           fitness := 0
           adj_fitness := 0 },
         (hd.next_genome_id).2) := by
  simp only [Genome.buildInit]
  rw [initOutputLoop_false]
  rfl

/-- Keys of the constructed output nodes. -/
theorem outputKeysFrom_eq (cfg : Config) :
    ∀ (n start : Nat),
      (mkOutputNodesFrom cfg start n).map (fun nd => (nd.id, nd.type))
        = outputKeysFrom start n := by
  intro n
  induction n with
  | zero => intro start; rfl
  | succ n ih => intro start; simp [mkOutputNodesFrom, outputKeysFrom, ih]

/-- The shallow copy's base keys are exactly `initBase`. -/
theorem baseKeys_buildInit_false (ni no : Nat) (hd : IdHandler) (cfg : Config)
    (w : Nat → Rat) :
    baseKeys (Genome.buildInit ni no hd cfg false w).1
      = initBase ni no cfg.bias_value.isSome := by
  rw [buildInit_false]
  cases hb : cfg.bias_value with
  | none =>
    simp [baseKeys, initBase, mkInputNodes, mkBiasNode, hb, List.map_map,
      outputKeysFrom_eq, Function.comp]
  | some v =>
    simp [baseKeys, initBase, mkInputNodes, mkBiasNode, hb, List.map_map,
      outputKeysFrom_eq, Function.comp]

/-- Every gene in an aligned slot comes from the corresponding parent list
(for any per-parent properties `P`, `Q`). -/
theorem alignZip_forall (P Q : ConnectionGene → Prop) :
    ∀ (l1 l2 : List ConnectionGene), (∀ c ∈ l1, P c) → (∀ d ∈ l2, Q d) →
      ∀ slot ∈ alignZip l1 l2,
        (∀ x, slot.1 = some x → P x) ∧ (∀ y, slot.2 = some y → Q y) := by
  intro l1
  induction l1 with
  | nil =>
    intro l2 _ h2 slot hslot
    simp only [alignZip] at hslot
    obtain ⟨d, hd, hs⟩ := List.mem_map.mp hslot
    refine ⟨fun x hx => ?_, fun y hy => ?_⟩
    · rw [← hs] at hx
      exact Option.noConfusion hx
    · rw [← hs] at hy
      simp only at hy
      rw [← Option.some.injEq d y |>.mp hy]
      exact h2 d hd
  | cons c cs ih =>
    intro l2
    induction l2 with
    | nil =>
      intro h1 h2 slot hslot
      simp only [alignZip, alignOne] at hslot
      rcases List.mem_cons.mp hslot with hs | htail
      · rw [hs]
        refine ⟨fun x hx => ?_, fun y hy => Option.noConfusion hy⟩
        simp only at hx
        rw [← Option.some.injEq c x |>.mp hx]
        exact h1 c (List.mem_cons_self c cs)
      · exact ih [] (fun a ha => h1 a (List.mem_cons_of_mem c ha)) h2 slot htail
    | cons d ds ihd =>
      intro h1 h2 slot hslot
      simp only [alignZip, alignOne] at hslot
      by_cases he : c.id = d.id
      · rw [if_pos he] at hslot
        rcases List.mem_cons.mp hslot with hs | htail
        · rw [hs]
          refine ⟨fun x hx => ?_, fun y hy => ?_⟩
          · simp only at hx
            rw [← Option.some.injEq c x |>.mp hx]
            exact h1 c (List.mem_cons_self c cs)
          · simp only at hy
            rw [← Option.some.injEq d y |>.mp hy]
            exact h2 d (List.mem_cons_self d ds)
        · exact ih ds (fun a ha => h1 a (List.mem_cons_of_mem c ha))
            (fun a ha => h2 a (List.mem_cons_of_mem d ha)) slot htail
      · rw [if_neg he] at hslot
        by_cases hlt : c.id < d.id
        · rw [if_pos hlt] at hslot
          rcases List.mem_cons.mp hslot with hs | htail
          · rw [hs]
            refine ⟨fun x hx => ?_, fun y hy => Option.noConfusion hy⟩
            simp only at hx
            rw [← Option.some.injEq c x |>.mp hx]
            exact h1 c (List.mem_cons_self c cs)
          · exact ih (d :: ds) (fun a ha => h1 a (List.mem_cons_of_mem c ha)) h2 slot htail
        · rw [if_neg hlt] at hslot
          rcases List.mem_cons.mp hslot with hs | htail
          · rw [hs]
            refine ⟨fun x hx => Option.noConfusion hx, fun y hy => ?_⟩
            simp only at hy
            rw [← Option.some.injEq d y |>.mp hy]
            exact h2 d (List.mem_cons_self d ds)
          · exact ihd h1 (fun a ha => h2 a (List.mem_cons_of_mem d ha)) slot htail

/-- Validity of a source endpoint w.r.t. the offspring's base nodes: a
hidden endpoint must not collide with a base id; a non-hidden endpoint
must be a base node (else the `added_nodes` lookup would fail). -/
def endpointSrcOK (base : List (Nat × NodeType)) (n : NodeGene) : Bool :=
  if n.type == NodeType.HIDDEN then !(base.any (fun b => b.1 == n.id))
  else base.any (fun b => b.1 == n.id)

/-- Validity of a destination endpoint: as for sources, and a non-hidden
destination must resolve to an OUTPUT base node (else `add_connection`
would raise the non-caught bias/input error). -/
def endpointDstOK (base : List (Nat × NodeType)) (n : NodeGene) : Bool :=
  if n.type == NodeType.HIDDEN then !(base.any (fun b => b.1 == n.id))
  else (base.any (fun b => b.1 == n.id)) &&
    (base.all (fun b => !(b.1 == n.id) || b.2 == NodeType.OUTPUT))

def connParentOK (base : List (Nat × NodeType)) (c : ConnectionGene) : Bool :=
  endpointSrcOK base c.from_node && endpointDstOK base c.to_node

/-- Validity of a parent pair for crossover: every connection endpoint of
either parent is compatible with the offspring base derived from `gen1`
(the parent the shallow copy is taken from). -/
def validParents (gen1 gen2 : Genome) : Bool :=
  (gen1.connections ++ gen2.connections).all
    (connParentOK (initBase gen1.input_nodes.length gen1.output_nodes.length
      gen1.config.bias_value.isSome))

/-- Both genes of an aligned slot are valid for the offspring base. -/
def slotOK (base : List (Nat × NodeType))
    (slot : Option ConnectionGene × Option ConnectionGene) : Prop :=
  (∀ c, slot.1 = some c → connParentOK base c = true) ∧
  (∀ c, slot.2 = some c → connParentOK base c = true)

/-- Crossover loop invariant: the offspring's (src, dest) pairs are
duplicate-free, its base nodes are the shallow copy's, and its hidden
nodes are HIDDEN with ids disjoint from the base ids. -/
def MateInv (base : List (Nat × NodeType)) (g : Genome) : Prop :=
  (pairList g).Nodup ∧ baseKeys g = base ∧
    ∀ n ∈ g.hidden_nodes, n.type = NodeType.HIDDEN ∧ ∀ b ∈ base, b.1 ≠ n.id

theorem hasNodeId_iff (g : Genome) (nid : Nat) :
    hasNodeId g nid = true ↔ ∃ n ∈ g.nodes, n.id = nid := by
  simp [hasNodeId, List.any_eq_true]

theorem baseKeys_addHidden (g : Genome) (n : NodeGene) :
    baseKeys (addHiddenIfNeeded g n) = baseKeys g := by
  unfold addHiddenIfNeeded
  split <;> rfl

theorem pairList_addHidden (g : Genome) (n : NodeGene) :
    pairList (addHiddenIfNeeded g n) = pairList g := by
  unfold addHiddenIfNeeded
  split <;> rfl

theorem hasNodeId_addHidden_mono (g : Genome) (n : NodeGene) (nid : Nat)
    (h : hasNodeId g nid = true) :
    hasNodeId (addHiddenIfNeeded g n) nid = true := by
  unfold addHiddenIfNeeded
  split
  · rw [hasNodeId_iff] at h ⊢
    obtain ⟨m, hm, hid⟩ := h
    refine ⟨m, ?_, hid⟩
    simp only [Genome.nodes, List.mem_append] at hm ⊢
    tauto
  · exact h

theorem addHidden_gives (g : Genome) (n : NodeGene) (hn : n.type = NodeType.HIDDEN) :
    hasNodeId (addHiddenIfNeeded g n) n.id = true := by
  unfold addHiddenIfNeeded
  split
  case isTrue h =>
    rw [hasNodeId_iff]
    refine ⟨n.shallow_copy, ?_, rfl⟩
    simp [Genome.nodes]
  case isFalse h =>
    by_contra hno
    exact h ⟨hn, hno⟩

theorem addHidden_inv (base : List (Nat × NodeType)) (g : Genome) (n : NodeGene)
    (hinv : MateInv base g)
    (hn : n.type = NodeType.HIDDEN → ∀ b ∈ base, b.1 ≠ n.id) :
    MateInv base (addHiddenIfNeeded g n) := by
  obtain ⟨h1, h2, h3⟩ := hinv
  refine ⟨?_, ?_, ?_⟩
  · rw [pairList_addHidden]; exact h1
  · rw [baseKeys_addHidden]; exact h2
  · intro m hm
    unfold addHiddenIfNeeded at hm
    split at hm
    case isTrue hcond =>
      have hm2 : m ∈ g.hidden_nodes ++ [n.shallow_copy] := hm
      rcases List.mem_append.mp hm2 with hmem | hsingle
      · exact h3 m hmem
      · rw [List.mem_singleton.mp hsingle]
        exact ⟨hcond.1, hn hcond.1⟩
    case isFalse => exact h3 m hm

theorem hasNodeId_of_baseKey (base : List (Nat × NodeType)) (g : Genome) (nid : Nat)
    (hbk : baseKeys g = base)
    (h : base.any (fun b => b.1 == nid) = true) : hasNodeId g nid = true := by
  rw [hasNodeId_iff]
  rw [← hbk] at h
  simp only [baseKeys, List.any_eq_true, List.mem_map, beq_iff_eq] at h
  obtain ⟨b, ⟨x, hx, hxb⟩, hb1⟩ := h
  refine ⟨x, ?_, ?_⟩
  · simp only [Genome.nodes, List.mem_append] at hx ⊢
    tauto
  · rw [← hxb] at hb1
    exact hb1

theorem node_mem_split (g : Genome) (m : NodeGene) (hm : m ∈ g.nodes) :
    (m.id, m.type) ∈ baseKeys g ∨ m ∈ g.hidden_nodes := by
  simp only [Genome.nodes, List.mem_append] at hm
  rcases hm with ((h | h) | h) | h
  · left
    simp only [baseKeys, List.mem_map]
    refine ⟨m, ?_, rfl⟩
    simp only [List.mem_append]
    tauto
  · left
    simp only [baseKeys, List.mem_map]
    refine ⟨m, ?_, rfl⟩
    simp only [List.mem_append]
    tauto
  · left
    simp only [baseKeys, List.mem_map]
    refine ⟨m, ?_, rfl⟩
    simp only [List.mem_append]
    tauto
  · right; exact h

theorem lookup_some_of_has (g : Genome) (nid : Nat) (h : hasNodeId g nid = true) :
    ∃ m, lookupNode g nid = some m ∧ m.id = nid ∧ m ∈ g.nodes := by
  unfold lookupNode
  cases hf : g.nodes.find? (fun n => n.id == nid) with
  | none =>
    exfalso
    rw [hasNodeId_iff] at h
    obtain ⟨n, hn, hid⟩ := h
    have := List.find?_eq_none.mp hf n hn
    simp [hid] at this
  | some m =>
    refine ⟨m, rfl, ?_, List.mem_of_find?_eq_some hf⟩
    have := List.find?_some hf
    simpa using this

theorem lookup_dst_type (base : List (Nat × NodeType)) (g : Genome)
    (hbk : baseKeys g = base)
    (hhid : ∀ n ∈ g.hidden_nodes, n.type = NodeType.HIDDEN ∧ ∀ b ∈ base, b.1 ≠ n.id)
    (n m : NodeGene) (hok : endpointDstOK base n = true)
    (hfind : lookupNode g n.id = some m) :
    m.type ≠ NodeType.BIAS ∧ m.type ≠ NodeType.INPUT := by
  have hmid : m.id = n.id := by simpa using List.find?_some hfind
  have hmmem : m ∈ g.nodes := List.mem_of_find?_eq_some hfind
  rcases node_mem_split g m hmmem with hbase | hh
  · rw [hbk] at hbase
    unfold endpointDstOK at hok
    by_cases ht : n.type == NodeType.HIDDEN
    · rw [if_pos ht] at hok
      exfalso
      have hnone : base.any (fun b => b.1 == n.id) = false := by simpa using hok
      simp only [List.any_eq_false, beq_iff_eq] at hnone
      exact hnone (m.id, m.type) hbase (by rw [hmid])
    · rw [if_neg ht] at hok
      rw [Bool.and_eq_true] at hok
      have hall := hok.2
      simp only [List.all_eq_true] at hall
      have hb := hall (m.id, m.type) hbase
      rw [hmid] at hb
      simp only [beq_self_eq_true, Bool.not_true, Bool.false_or, beq_iff_eq] at hb
      rw [hb]
      exact ⟨by decide, by decide⟩
  · rw [(hhid m hh).1]
    exact ⟨by decide, by decide⟩

theorem not_pair_mem (g : Genome) (s d : NodeGene)
    (h : connection_exists g s d = false) : (s.id, d.id) ∉ pairList g := by
  intro hmem
  simp only [pairList, List.mem_map] at hmem
  obtain ⟨c, hc, hpair⟩ := hmem
  obtain ⟨hp1, hp2⟩ := Prod.mk.injEq _ _ _ _ ▸ hpair
  have : connection_exists g s d = true :=
    (connection_exists_iff g s d).mpr ⟨c, hc, hp1, hp2⟩
  rw [h] at this
  exact Bool.noConfusion this

theorem add_connection_exists_error (g : Genome) (hd : IdHandler) (src dest : NodeGene)
    (en : Bool) (cid? : Option Nat) (w? : Option Rat) (wd : Rat)
    (h : connection_exists g src dest = true) :
    add_connection g hd src dest en cid? w? wd = .error .ConnectionExistsError := by
  unfold add_connection
  rw [if_pos h]

theorem add_connection_ok_explicit (g : Genome) (hd : IdHandler) (src dest : NodeGene)
    (en : Bool) (cid : Nat) (w wd : Rat)
    (h1 : connection_exists g src dest = false)
    (h2 : dest.type ≠ NodeType.BIAS) (h3 : dest.type ≠ NodeType.INPUT) :
    add_connection g hd src dest en (some cid) (some w) wd
      = .ok ({ g with connections := g.connections ++
            [{ id := cid, from_node := src, to_node := dest, weight := w, enabled := en }] },
          hd) := by
  unfold add_connection
  rw [if_neg (by rw [h1]; exact Bool.false_ne_true)]
  rw [if_neg (by rintro (h | h); exacts [h2 h, h3 h])]
  rfl

/-- One crossover slot over a valid gene preserves the invariant and never
raises: the only possible `add_connection` failure is the silently-skipped
duplicate. -/
theorem mateStep_ok (gen1 gen2 : Genome) (pick chanceO : Nat → Bool)
    (base : List (Nat × NodeType)) (g : Genome) (i : Nat)
    (slot : Option ConnectionGene × Option ConnectionGene)
    (hinv : MateInv base g) (hslot : slotOK base slot) :
    ∃ g', mateStep gen1 gen2 pick chanceO (g, i) slot = .ok (g', i + 1)
      ∧ MateInv base g' := by
  by_cases h1 : slot.1.isNone ∧ gen1.adj_fitness > gen2.adj_fitness
  · refine ⟨g, ?_, hinv⟩
    simp only [mateStep]
    rw [if_pos h1]
  by_cases h2 : slot.2.isNone ∧ gen2.adj_fitness > gen1.adj_fitness
  · refine ⟨g, ?_, hinv⟩
    simp only [mateStep]
    rw [if_neg h1, if_pos h2]
  cases hc : (if pick i then slot.1 else slot.2) with
  | none =>
    refine ⟨g, ?_, hinv⟩
    simp only [mateStep]
    rw [if_neg h1, if_neg h2, hc]
  | some c =>
    have hcok : connParentOK base c = true := by
      by_cases hp : pick i
      · rw [if_pos hp] at hc
        exact hslot.1 c hc
      · rw [if_neg hp] at hc
        exact hslot.2 c hc
    rw [connParentOK, Bool.and_eq_true] at hcok
    have hsrcok := hcok.1
    have hdstok := hcok.2
    have hinvA : MateInv base (addHiddenIfNeeded g c.from_node) := by
      refine addHidden_inv base g c.from_node hinv ?_
      intro hh b hb
      rw [endpointSrcOK, if_pos (by simp [hh])] at hsrcok
      have hnone : base.any (fun b => b.1 == c.from_node.id) = false := by
        simpa using hsrcok
      simp only [List.any_eq_false, beq_iff_eq] at hnone
      exact hnone b hb
    have hinvB : MateInv base
        (addHiddenIfNeeded (addHiddenIfNeeded g c.from_node) c.to_node) := by
      refine addHidden_inv base _ c.to_node hinvA ?_
      intro hh b hb
      rw [endpointDstOK, if_pos (by simp [hh])] at hdstok
      have hnone : base.any (fun b => b.1 == c.to_node.id) = false := by
        simpa using hdstok
      simp only [List.any_eq_false, beq_iff_eq] at hnone
      exact hnone b hb
    have hhasFrom : hasNodeId
        (addHiddenIfNeeded (addHiddenIfNeeded g c.from_node) c.to_node)
        c.from_node.id = true := by
      apply hasNodeId_addHidden_mono
      by_cases hh : c.from_node.type = NodeType.HIDDEN
      · exact addHidden_gives g c.from_node hh
      · rw [endpointSrcOK, if_neg (by simpa using hh)] at hsrcok
        apply hasNodeId_addHidden_mono
        exact hasNodeId_of_baseKey base g c.from_node.id hinv.2.1 hsrcok
    have hhasTo : hasNodeId
        (addHiddenIfNeeded (addHiddenIfNeeded g c.from_node) c.to_node)
        c.to_node.id = true := by
      by_cases hh : c.to_node.type = NodeType.HIDDEN
      · exact addHidden_gives _ c.to_node hh
      · rw [endpointDstOK, if_neg (by simpa using hh), Bool.and_eq_true] at hdstok
        apply hasNodeId_addHidden_mono
        apply hasNodeId_addHidden_mono
        exact hasNodeId_of_baseKey base g c.to_node.id hinv.2.1 hdstok.1
    obtain ⟨s, hslookup, hsid, hsmem⟩ := lookup_some_of_has _ _ hhasFrom
    obtain ⟨d, hdlookup, hdid, hdmem⟩ := lookup_some_of_has _ _ hhasTo
    have hdtype : d.type ≠ NodeType.BIAS ∧ d.type ≠ NodeType.INPUT := by
      refine lookup_dst_type base _ hinvB.2.1 hinvB.2.2 c.to_node d hdstok ?_
      exact hdlookup
    by_cases hdup : connection_exists
        (addHiddenIfNeeded (addHiddenIfNeeded g c.from_node) c.to_node) s d = true
    · refine ⟨addHiddenIfNeeded (addHiddenIfNeeded g c.from_node) c.to_node, ?_, hinvB⟩
      simp only [mateStep]
      rw [if_neg h1, if_neg h2, hc]
      simp only
      rw [hslookup, hdlookup]
      simp only
      rw [add_connection_exists_error _ _ _ _ _ _ _ _ hdup]
    · have hfalse : connection_exists
          (addHiddenIfNeeded (addHiddenIfNeeded g c.from_node) c.to_node) s d
          = false := by
        rw [Bool.not_eq_true] at hdup
        exact hdup
      refine ⟨{ addHiddenIfNeeded (addHiddenIfNeeded g c.from_node) c.to_node with
          connections :=
            (addHiddenIfNeeded (addHiddenIfNeeded g c.from_node) c.to_node).connections
              ++ [{ id := c.id, from_node := s, to_node := d, weight := c.weight,
                    enabled := disabledInEither slot.1 slot.2 && chanceO i }] }, ?_, ?_⟩
      · simp only [mateStep]
        rw [if_neg h1, if_neg h2, hc]
        simp only
        rw [hslookup, hdlookup]
        simp only
        rw [add_connection_ok_explicit _ _ _ _ _ _ _ _ hfalse hdtype.1 hdtype.2]
      · obtain ⟨hnd, hbk, hhid⟩ := hinvB
        refine ⟨?_, hbk, hhid⟩
        have hplist : pairList
            ({ addHiddenIfNeeded (addHiddenIfNeeded g c.from_node) c.to_node with
                connections :=
                  (addHiddenIfNeeded (addHiddenIfNeeded g c.from_node) c.to_node).connections
                    ++ [{ id := c.id, from_node := s, to_node := d, weight := c.weight,
                          enabled := disabledInEither slot.1 slot.2 && chanceO i }] })
            = pairList (addHiddenIfNeeded (addHiddenIfNeeded g c.from_node) c.to_node)
              ++ [(s.id, d.id)] := by
          simp [pairList]
        rw [hplist, ← List.concat_eq_append]
        exact List.Nodup.concat (not_pair_mem _ s d hfalse) hnd

/-- Folding the crossover step over valid slots succeeds and preserves the
invariant. -/
theorem mateFold_ok (gen1 gen2 : Genome) (pick chanceO : Nat → Bool)
    (base : List (Nat × NodeType)) :
    ∀ (slots : List (Option ConnectionGene × Option ConnectionGene)) (g : Genome) (i : Nat),
      (∀ slot ∈ slots, slotOK base slot) → MateInv base g →
      ∃ g' i', List.foldlM (mateStep gen1 gen2 pick chanceO) (g, i) slots = .ok (g', i')
        ∧ MateInv base g' := by
  intro slots
  induction slots with
  | nil =>
    intro g i _ hinv
    exact ⟨g, i, rfl, hinv⟩
  | cons s ss ih =>
    intro g i hss hinv
    obtain ⟨g1, hstep, hinv1⟩ := mateStep_ok gen1 gen2 pick chanceO base g i s hinv
      (hss s (List.mem_cons_self s ss))
    obtain ⟨g', i', hfold, hinv'⟩ := ih g1 (i + 1)
      (fun t ht => hss t (List.mem_cons_of_mem s ht)) hinv1
    refine ⟨g', i', ?_, hinv'⟩
    rw [List.foldlM_cons, hstep]
    exact hfold

/-- C5: for every pair of valid parents and every outcome of the random
draws, `mate_genomes` returns an offspring (the duplicate-connection
conflicts being silently skipped, and no error propagating) containing no
two connections with the same (source, destination) pair. -/
theorem mate_genomes_no_duplicate_pairs (gen1 gen2 : Genome) (hd : IdHandler)
    (pick chanceO : Nat → Bool) (hvalid : validParents gen1 gen2 = true) :
    ∃ g' hd', mate_genomes gen1 gen2 hd pick chanceO = .ok (g', hd')
      ∧ (pairList g').Nodup := by
  simp only [validParents, List.all_eq_true] at hvalid
  have hbase : MateInv (initBase gen1.input_nodes.length gen1.output_nodes.length
      gen1.config.bias_value.isSome) (gen1.shallow_copy hd).1 := by
    unfold Genome.shallow_copy
    refine ⟨?_, ?_, ?_⟩
    · rw [buildInit_false]
      simp [pairList]
    · exact baseKeys_buildInit_false _ _ _ _ _
    · rw [buildInit_false]
      intro n hn
      simp at hn
  have hslots : ∀ slot ∈ alignZip gen1.connections gen2.connections,
      slotOK (initBase gen1.input_nodes.length gen1.output_nodes.length
        gen1.config.bias_value.isSome) slot := by
    intro slot hslot
    have h := alignZip_forall
      (fun c => connParentOK (initBase gen1.input_nodes.length gen1.output_nodes.length
        gen1.config.bias_value.isSome) c = true)
      (fun c => connParentOK (initBase gen1.input_nodes.length gen1.output_nodes.length
        gen1.config.bias_value.isSome) c = true)
      gen1.connections gen2.connections
      (fun c hc => hvalid c (List.mem_append_left _ hc))
      (fun c hc => hvalid c (List.mem_append_right _ hc))
      slot hslot
    exact ⟨h.1, h.2⟩
  obtain ⟨g', i', hfold, hinv'⟩ := mateFold_ok gen1 gen2 pick chanceO
    (initBase gen1.input_nodes.length gen1.output_nodes.length
      gen1.config.bias_value.isSome)
    (alignZip gen1.connections gen2.connections) (gen1.shallow_copy hd).1 0 hslots hbase
  refine ⟨g', (gen1.shallow_copy hd).2, ?_, hinv'.1⟩
  simp only [mate_genomes]
  rw [hfold]
  rfl

theorem mate_genomes_no_duplicate_pairs_witness :
    ∃ g' hd', mate_genomes gM1 gM2 hdW (fun _ => true) (fun _ => true) = .ok (g', hd')
      ∧ (pairList g').Nodup :=
  mate_genomes_no_duplicate_pairs gM1 gM2 hdW (fun _ => true) (fun _ => true) (by decide)

end Nevopy
